import Mathlib

/- Shallow embedding of src/faust/sensors/datadog.py.

   Strings are modelled as Lean strings (lists of characters restricted to the
   ASCII behaviour of the Python operations involved), numeric metric values
   as rationals, and the side-effecting behaviour of the sensor as explicit
   traces of actions.  A stream is represented by its shortlabel string and a
   table by its name string, since those are the only attributes the source
   reads from them. -/

namespace Faust

/- ===== Module-level normalisation, from RE_NORMALIZE and _normalize ===== -/

/-- Character class of the module pattern RE_NORMALIZE, which matches one or
more of the characters < > : and whitespace (modelled at its ASCII extent). -/
def isNormChar (c : Char) : Bool :=
  ['<', '>', ':', ' ', '\t', '\n', '\r', '\x0b', '\x0c'].contains c

/-- One substitution pass of RE_NORMALIZE with replacement text underscore:
every maximal run of class characters becomes a single underscore.  The Bool
argument tracks whether the previous character belonged to the class. -/
def normSub : Bool → List Char → List Char
  | _, [] => []
  | prev, c :: cs =>
    if isNormChar c then
      if prev then normSub true cs else '_' :: normSub true cs
    else c :: normSub false cs

/-- DatadogStatsMonitor._normalize: the RE_NORMALIZE substitution applied to a
name (the source always uses the default pattern and substitution). -/
def _normalize (name : String) : String :=
  String.mk (normSub false name.data)

/-- Python str.lstrip with a string argument: drops the longest leading run of
characters that belong to the argument viewed as a character SET. -/
def lstripChars (cutset : List Char) (l : List Char) : List Char :=
  l.dropWhile (fun c => cutset.contains c)

/-- Python str.strip with an underscore argument: removes the leading and the
trailing run of underscores. -/
def stripUnderscores (l : List Char) : List Char :=
  ((l.dropWhile (fun c => c == '_')).reverse.dropWhile (fun c => c == '_')).reverse

/-- Python str.lower at its ASCII extent. -/
def lowerChars (l : List Char) : List Char :=
  l.map Char.toLower

/-- DatadogStatsMonitor._stream_label, from the source: the shortlabel is
first lstripped with the cut set of the seven characters of the string
interpreted by Python str.lstrip as a character set, then _normalize is
applied, then strip of underscores, then lower-case. -/
def _stream_label (shortlabel : String) : String :=
  String.mk (lowerChars (stripUnderscores
    ((_normalize (String.mk (lstripChars "Stream:".data shortlabel.data))).data)))

/-- Modelled from the claim wording of C1: strip the SUBSTRING from the front,
a single prefix removal performed only when it actually is a prefix. -/
def stripLeadingStreamTag (l : List Char) : List Char :=
  if l.take "Stream:".data.length = "Stream:".data
  then l.drop "Stream:".data.length else l

/-- Modelled from the spec wording: collapse every maximal run of the
RE_NORMALIZE class into one underscore, written with an explicit dropWhile
over the remainder of each run. -/
def collapseRuns : List Char → List Char
  | [] => []
  | c :: cs =>
    if isNormChar c then '_' :: collapseRuns (cs.dropWhile isNormChar)
    else c :: collapseRuns cs
termination_by l => l.length
decreasing_by
  all_goals simp only [List.length_cons]
  · have hLe : ∀ l : List Char,
        (List.dropWhile isNormChar l).length ≤ l.length := by
      intro l
      induction l with
      | nil => simp [List.dropWhile]
      | cons a as ih =>
        simp only [List.dropWhile]
        cases h : isNormChar a
        · simp
        · simpa using Nat.le_succ_of_le ih
    exact Nat.lt_succ_of_le (hLe cs)
  · exact Nat.lt_succ_self _

/-- The pipeline exactly as claim C1 states it: substring strip, collapse of
runs, trim of underscores, lower-case. -/
def streamLabelClaimed (shortlabel : String) : String :=
  String.mk (lowerChars (stripUnderscores (collapseRuns
    (stripLeadingStreamTag shortlabel.data))))

/-- The amended pipeline: identical to the claimed one except that the first
stage removes the longest leading run of characters drawn from the cut set of
the seven characters S t r e a m colon, which is the Python lstrip reading. -/
def streamLabelAmendedSpec (shortlabel : String) : String :=
  String.mk (lowerChars (stripUnderscores (collapseRuns
    (lstripChars "Stream:".data shortlabel.data))))

/- ================= DatadogStatsClient, the facade ================= -/

/-- A label value as stored by the sensor before the Python str() conversion:
topics, stream labels and table names are strings, partitions and offsets that
land in label positions are integers. -/
inductive LabelVal where
  | str : String → LabelVal
  | int : Int → LabelVal

/-- Python str() applied to a label value. -/
def LabelVal.toPyStr : LabelVal → String
  | LabelVal.str s => s
  | LabelVal.int i => toString i

/-- A label mapping as the sensor builds it; insertion order is kept. -/
abbrev LabelMap := List (String × LabelVal)

/-- The class of characters kept by sanitize_re, whose pattern matches every
character OUTSIDE 0-9 a-z A-Z underscore. -/
def isAllowedChar (c : Char) : Bool :=
  c.isAlphanum || c == '_'

/-- The inner sanitize of DatadogStatsClient._encode_labels: sanitize_re.sub
with re_substitution over str(s); every disallowed character becomes an
underscore, one by one. -/
def sanitize (s : String) : String :=
  String.mk (s.data.map (fun c => if isAllowedChar c then c else '_'))

/-- One encoded tag: sanitised key, colon, sanitised value. -/
def encodeLabel (kv : String × LabelVal) : String :=
  sanitize kv.1 ++ ":" ++ sanitize (LabelVal.toPyStr kv.2)

/-- DatadogStatsClient._encode_labels.  The Python conditional expression
treats both None and an empty mapping as falsy and yields None for them. -/
def _encode_labels (labels : Option LabelMap) : Option (List String) :=
  match labels with
  | none => none
  | some m => if m.isEmpty then none else some (m.map encodeLabel)

/-- The kind of facade or transport operation. -/
inductive MetricKind where
  | gauge
  | increment
  | decrement
  | timing
  | histogram
  | timed

/-- One call handed to the underlying DogStatsd transport.  The metric name is
optional because timed admits a missing name; only timed carries use_ms. -/
structure TransportCall where
  kind : MetricKind
  metric : Option String
  value : Option Rat
  tags : Option (List String)
  sample_rate : Rat
  use_ms : Option Bool

/-- DatadogStatsClient configuration: the DogStatsd handle keeps host, port
and the namespace (called pfx here), the facade keeps the sample rate. -/
structure DatadogStatsClient where
  host : String
  port : Int
  pfx : String
  rate : Rat

def DatadogStatsClient.gauge (c : DatadogStatsClient) (metric : String)
    (value : Rat) (labels : Option LabelMap) : TransportCall :=
  ⟨MetricKind.gauge, some metric, some value, _encode_labels labels, c.rate, none⟩

def DatadogStatsClient.increment (c : DatadogStatsClient) (metric : String)
    (value : Rat) (labels : Option LabelMap) : TransportCall :=
  ⟨MetricKind.increment, some metric, some value, _encode_labels labels, c.rate, none⟩

def DatadogStatsClient.decrement (c : DatadogStatsClient) (metric : String)
    (value : Rat) (labels : Option LabelMap) : TransportCall :=
  ⟨MetricKind.decrement, some metric, some value, _encode_labels labels, c.rate, none⟩

def DatadogStatsClient.timing (c : DatadogStatsClient) (metric : String)
    (value : Rat) (labels : Option LabelMap) : TransportCall :=
  ⟨MetricKind.timing, some metric, some value, _encode_labels labels, c.rate, none⟩

def DatadogStatsClient.histogram (c : DatadogStatsClient) (metric : String)
    (value : Rat) (labels : Option LabelMap) : TransportCall :=
  ⟨MetricKind.histogram, some metric, some value, _encode_labels labels, c.rate, none⟩

def DatadogStatsClient.timed (c : DatadogStatsClient) (metric : Option String)
    (labels : Option LabelMap) (use_ms : Option Bool) : TransportCall :=
  ⟨MetricKind.timed, metric, none, _encode_labels labels, c.rate, use_ms⟩

/- ================= DatadogStatsMonitor, the sensor ================= -/

/-- Message of the ImproperlyConfigured error raised when the datadog module
failed to import. -/
def IMPROPERLY_CONFIGURED_MSG : String :=
  "DatadogStatsMonitor requires `pip install datadog`."

/-- DatadogStatsMonitor state: the four configuration fields (pfx models the
namespace parameter of the source) plus the memo slot that models the
cached_property client. -/
structure DatadogStatsMonitor where
  host : String
  port : Int
  pfx : String
  rate : Rat
  clientCache : Option DatadogStatsClient

/-- DatadogStatsMonitor constructor: stores the configuration and raises
ImproperlyConfigured exactly when the datadog module is unavailable, in which
case no monitor value is produced. -/
def DatadogStatsMonitor.init (datadogAvailable : Bool) (host : String)
    (port : Int) (pfx : String) (rate : Rat) :
    Except String DatadogStatsMonitor :=
  if datadogAvailable then Except.ok ⟨host, port, pfx, rate, none⟩
  else Except.error IMPROPERLY_CONFIGURED_MSG

def DatadogStatsMonitor._new_datadog_stats_client (m : DatadogStatsMonitor) :
    DatadogStatsClient :=
  ⟨m.host, m.port, m.pfx, m.rate⟩

/-- The cached_property client: first access constructs the client from the
stored configuration and fills the memo slot; later accesses return the
memoised client with the state unchanged. -/
def DatadogStatsMonitor.client (m : DatadogStatsMonitor) :
    DatadogStatsClient × DatadogStatsMonitor :=
  match m.clientCache with
  | some c => (c, m)
  | none =>
    let c := DatadogStatsMonitor._new_datadog_stats_client m
    (c, ⟨m.host, m.port, m.pfx, m.rate, some c⟩)

/-- A topic partition as supplied by the host runtime. -/
structure TP where
  topic : String
  partition : Int

/-- DatadogStatsMonitor._format_label: each optional context piece, when
present, contributes its fixed keys; keys are pairwise distinct so the list
models the Python dict updates faithfully. -/
def _format_label (tp : Option TP) (stream : Option String)
    (table : Option String) : LabelMap :=
  (match tp with
   | some t => [("topic", LabelVal.str t.topic),
                ("partition", LabelVal.int t.partition)]
   | none => [])
  ++ (match stream with
      | some s => [("stream", LabelVal.str (_stream_label s))]
      | none => [])
  ++ (match table with
      | some t => [("table", LabelVal.str t)]
      | none => [])

/-- DatadogStatsMonitor._time: seconds to milliseconds. -/
def _time (t : Rat) : Rat := t * 1000

/-- One call placed on the facade by a hook, before tag encoding. -/
structure FacadeCall where
  op : MetricKind
  metric : String
  value : Rat
  labels : Option LabelMap

/-- One observable step of a hook: the delegation to the base Monitor method
of the given name, or a facade call. -/
inductive Action where
  | delegate : String → Action
  | call : FacadeCall → Action

def Action.isDelegate : Action → Bool
  | Action.delegate _ => true
  | Action.call _ => false

def Action.isCall : Action → Bool
  | Action.delegate _ => false
  | Action.call _ => true

/-- Replay of one facade call against a client, producing the transport call
of the matching facade method. -/
def runFacade (c : DatadogStatsClient) (f : FacadeCall) : TransportCall :=
  match f.op with
  | MetricKind.gauge => c.gauge f.metric f.value f.labels
  | MetricKind.increment => c.increment f.metric f.value f.labels
  | MetricKind.decrement => c.decrement f.metric f.value f.labels
  | MetricKind.timing => c.timing f.metric f.value f.labels
  | MetricKind.histogram => c.histogram f.metric f.value f.labels
  | MetricKind.timed => c.timed (some f.metric) f.labels none

/- Hooks.  Each hook is the trace of its delegation and facade calls, in
source order.  Arguments the source never reads for the metric side (the
message object, the event object, keys and values of table mutations) are not
part of the model; the value 1 passed explicitly below reproduces the Python
default of increment and decrement. -/

def on_message_in (tp : TP) (offset : Int) : List Action :=
  let labels := some (_format_label (some tp) none none)
  [Action.delegate "on_message_in",
   Action.call ⟨MetricKind.increment, "messages_received", 1, labels⟩,
   Action.call ⟨MetricKind.increment, "messages_active", 1, labels⟩,
   Action.call ⟨MetricKind.gauge, "read_offset", (offset : Rat), labels⟩]

def on_stream_event_in (tp : TP) (stream : String) : List Action :=
  let labels := some (_format_label (some tp) (some stream) none)
  [Action.delegate "on_stream_event_in",
   Action.call ⟨MetricKind.increment, "events", 1, labels⟩,
   Action.call ⟨MetricKind.increment, "events_active", 1, labels⟩]

/-- The events_runtime argument is the history kept by the base Monitor as it
stands AFTER the delegation has run.  The Bool result records whether the
hook ran to completion: reading the last element of an empty history raises,
after the decrement was already placed. -/
def on_stream_event_out (tp : TP) (stream : String)
    (events_runtime : List Rat) : List Action × Bool :=
  let labels := some (_format_label (some tp) (some stream) none)
  match events_runtime.getLast? with
  | some r =>
    ([Action.delegate "on_stream_event_out",
      Action.call ⟨MetricKind.decrement, "events_active", 1, labels⟩,
      Action.call ⟨MetricKind.timing, "events_runtime", _time r, labels⟩], true)
  | none =>
    ([Action.delegate "on_stream_event_out",
      Action.call ⟨MetricKind.decrement, "events_active", 1, labels⟩], false)

def on_message_out (tp : TP) (offset : Int) : List Action :=
  [Action.delegate "on_message_out",
   Action.call ⟨MetricKind.decrement, "messages_active", 1,
     some (_format_label (some tp) none none)⟩]

def on_table_get (table : String) : List Action :=
  [Action.delegate "on_table_get",
   Action.call ⟨MetricKind.increment, "table_keys_retrieved", 1,
     some (_format_label none none (some table))⟩]

def on_table_set (table : String) : List Action :=
  [Action.delegate "on_table_set",
   Action.call ⟨MetricKind.increment, "table_keys_updated", 1,
     some (_format_label none none (some table))⟩]

def on_table_del (table : String) : List Action :=
  [Action.delegate "on_table_del",
   Action.call ⟨MetricKind.increment, "table_keys_deleted", 1,
     some (_format_label none none (some table))⟩]

/-- now models the monotonic() reading, state the opaque start timestamp. -/
def on_commit_completed (now state : Rat) : List Action :=
  [Action.delegate "on_commit_completed",
   Action.call ⟨MetricKind.timing, "commit_latency", _time (now - state), none⟩]

/-- The source emits the increment first and returns the delegated result. -/
def on_send_initiated (topic : String) : List Action :=
  [Action.call ⟨MetricKind.increment, "topic_messages_sent", 1,
     some [("topic", LabelVal.str topic)]⟩,
   Action.delegate "on_send_initiated"]

def on_send_completed (now state : Rat) : List Action :=
  [Action.delegate "on_send_completed",
   Action.call ⟨MetricKind.increment, "messages_sent", 1, none⟩,
   Action.call ⟨MetricKind.timing, "send_latency", _time (now - state), none⟩]

def count (metric_name : String) (n : Int) : List Action :=
  [Action.delegate "count",
   Action.call ⟨MetricKind.increment, metric_name, (n : Rat), none⟩]

def on_tp_commit (tp_offsets : List (TP × Int)) : List Action :=
  Action.delegate "on_tp_commit" ::
    tp_offsets.map (fun p =>
      Action.call ⟨MetricKind.gauge, "committed_offset", (p.2 : Rat),
        some (_format_label (some p.1) none none)⟩)

def track_tp_end_offset (tp : TP) (offset : Int) : List Action :=
  [Action.delegate "track_tp_end_offset",
   Action.call ⟨MetricKind.gauge, "end_offset", (offset : Rat),
     some (_format_label (some tp) none none)⟩]

/-- A trace delegates before it emits when it contains a delegation and no
facade call stands before the first delegation. -/
def delegateBeforeEmits (l : List Action) : Bool :=
  l.any Action.isDelegate &&
    (l.takeWhile (fun a => !a.isDelegate)).all (fun a => !a.isCall)

/- ============================= Theorems ============================= -/

/-- The flag-driven substitution and the run-collapsing recursion agree; the
true flag corresponds to standing inside a run. -/
theorem normSub_collapse (l : List Char) :
    normSub false l = collapseRuns l ∧
      normSub true l = collapseRuns (l.dropWhile isNormChar) := by
  induction l with
  | nil => constructor <;> simp [normSub, collapseRuns]
  | cons c cs ih =>
    by_cases hc : isNormChar c = true
    · refine ⟨?_, ?_⟩
      · simp [normSub, collapseRuns, hc, ih.2]
      · simp [normSub, List.dropWhile_cons, hc, ih.2]
    · refine ⟨?_, ?_⟩
      · simp [normSub, collapseRuns, hc, ih.1]
      · simp [normSub, List.dropWhile_cons, collapseRuns, hc, ih.1]

theorem normSub_false_eq (l : List Char) : normSub false l = collapseRuns l :=
  (normSub_collapse l).1

/-- Every character of a sanitised string lies in the allowed class. -/
theorem sanitize_chars_allowed (s : String) :
    ((sanitize s).data.all isAllowedChar) = true := by
  show ((s.data.map (fun c => if isAllowedChar c then c else '_')).all
    isAllowedChar) = true
  induction s.data with
  | nil => rfl
  | cons c cs ih =>
    rw [List.map_cons, List.all_cons, ih, Bool.and_true]
    by_cases hc : isAllowedChar c = true
    · rw [if_pos hc]; exact hc
    · rw [if_neg hc]; decide

/-- A non-empty list of runtimes has a last element. -/
theorem exists_getLast_cons (a : Rat) (as : List Rat) :
    ∃ r, (a :: as).getLast? = some r := by
  induction as generalizing a with
  | nil => exact ⟨a, rfl⟩
  | cons b bs ih =>
    obtain ⟨r, hr⟩ := ih b
    exact ⟨r, by rw [List.getLast?_cons_cons]; exact hr⟩

/-- C1, counterexample: the claim reads the lstrip argument as a substring,
the code applies it as a character set.  On the shortlabel "mate", whose four
characters all belong to the cut set, the code yields the empty label while
the claimed pipeline yields "mate". -/
theorem C1_counterexample :
    ¬ (_stream_label "mate" = streamLabelClaimed "mate") := by
  intro hEq
  have h2 : streamLabelClaimed "mate" = "mate" := by
    unfold streamLabelClaimed
    rw [← normSub_false_eq]
    decide
  have h1 : _stream_label "mate" = "" := by decide
  rw [h1, h2] at hEq
  exact absurd hEq (by decide)

/-- C1 (amended): the metric label derived from a stream shortlabel s equals
the result of removing the longest leading run of characters drawn from the
set S t r e a m colon (Python lstrip semantics), collapsing every run of the
characters < > : and whitespace into a single underscore, trimming leading
and trailing underscores, and lower-casing. -/
theorem C1_theorem (s : String) : _stream_label s = streamLabelAmendedSpec s := by
  show String.mk (lowerChars (stripUnderscores
      (normSub false (lstripChars "Stream:".data s.data))))
    = streamLabelAmendedSpec s
  unfold streamLabelAmendedSpec
  rw [← normSub_false_eq]

/-- C2, counterexample: the send-initiated hook places its facade call before
the delegation, so on the concrete topic "payments" its trace does not
delegate first. -/
theorem C2_counterexample :
    delegateBeforeEmits (on_send_initiated "payments") = false := rfl

/-- C2 (amended): every lifecycle hook performs the delegation to the host
bookkeeping before any metric-emission call, except on_send_initiated, which
emits its metric call first and performs the delegation last. -/
theorem C2_theorem :
    (∀ tp offset, delegateBeforeEmits (on_message_in tp offset) = true)
  ∧ (∀ tp offset, delegateBeforeEmits (on_message_out tp offset) = true)
  ∧ (∀ tp stream, delegateBeforeEmits (on_stream_event_in tp stream) = true)
  ∧ (∀ tp stream h,
      delegateBeforeEmits (on_stream_event_out tp stream h).1 = true)
  ∧ (∀ table, delegateBeforeEmits (on_table_get table) = true)
  ∧ (∀ table, delegateBeforeEmits (on_table_set table) = true)
  ∧ (∀ table, delegateBeforeEmits (on_table_del table) = true)
  ∧ (∀ now state, delegateBeforeEmits (on_commit_completed now state) = true)
  ∧ (∀ now state, delegateBeforeEmits (on_send_completed now state) = true)
  ∧ (∀ metric_name n, delegateBeforeEmits (count metric_name n) = true)
  ∧ (∀ offs, delegateBeforeEmits (on_tp_commit offs) = true)
  ∧ (∀ tp offset, delegateBeforeEmits (track_tp_end_offset tp offset) = true)
  ∧ (∀ topic, on_send_initiated topic =
      [Action.call ⟨MetricKind.increment, "topic_messages_sent", 1,
         some [("topic", LabelVal.str topic)]⟩,
       Action.delegate "on_send_initiated"]) := by
  refine ⟨fun _ _ => rfl, fun _ _ => rfl, fun _ _ => rfl, ?_,
    fun _ => rfl, fun _ => rfl, fun _ => rfl, fun _ _ => rfl, fun _ _ => rfl,
    fun _ _ => rfl, fun _ => rfl, fun _ _ => rfl, fun _ => rfl⟩
  intro tp stream h
  unfold on_stream_event_out
  cases hE : h.getLast? <;> rfl

/-- C3: every facade operation passes its labels through _encode_labels, and
the sanitisation maps each key and each value independently to a string all
of whose characters lie in the class 0-9 a-z A-Z underscore, by replacing
each character outside that class with an underscore. -/
theorem C3_theorem (c : DatadogStatsClient) (metricName : String) (v : Rat)
    (labels : Option LabelMap) (m0 : Option String) (ums : Option Bool) :
    ((DatadogStatsClient.gauge c metricName v labels).tags
        = _encode_labels labels
      ∧ (DatadogStatsClient.increment c metricName v labels).tags
        = _encode_labels labels
      ∧ (DatadogStatsClient.decrement c metricName v labels).tags
        = _encode_labels labels
      ∧ (DatadogStatsClient.timing c metricName v labels).tags
        = _encode_labels labels
      ∧ (DatadogStatsClient.histogram c metricName v labels).tags
        = _encode_labels labels
      ∧ (DatadogStatsClient.timed c m0 labels ums).tags
        = _encode_labels labels)
  ∧ (∀ k : String, ∀ lv : LabelVal,
      encodeLabel (k, lv)
          = sanitize k ++ ":" ++ sanitize (LabelVal.toPyStr lv)
        ∧ ((sanitize k).data.all isAllowedChar) = true
        ∧ ((sanitize (LabelVal.toPyStr lv)).data.all isAllowedChar) = true
        ∧ sanitize k
          = String.mk (k.data.map (fun ch => if isAllowedChar ch then ch else '_'))) :=
  ⟨⟨rfl, rfl, rfl, rfl, rfl, rfl⟩,
   fun k lv => ⟨rfl, sanitize_chars_allowed k, sanitize_chars_allowed _, rfl⟩⟩

/-- C4: the message-in hook delegates and then emits exactly three facade
calls, an increment of messages_received by one, an increment of
messages_active by one, and a gauge of read_offset to the offset, each with
exactly the topic and partition labels, and nothing else. -/
theorem C4_theorem (tp : TP) (offset : Int) :
    on_message_in tp offset =
      [Action.delegate "on_message_in",
       Action.call ⟨MetricKind.increment, "messages_received", 1,
         some [("topic", LabelVal.str tp.topic),
               ("partition", LabelVal.int tp.partition)]⟩,
       Action.call ⟨MetricKind.increment, "messages_active", 1,
         some [("topic", LabelVal.str tp.topic),
               ("partition", LabelVal.int tp.partition)]⟩,
       Action.call ⟨MetricKind.gauge, "read_offset", (offset : Rat),
         some [("topic", LabelVal.str tp.topic),
               ("partition", LabelVal.int tp.partition)]⟩] := by
  simp [on_message_in, _format_label]

/-- C5: whenever the post-delegation events_runtime history ends with the
sample r, the stream-event-out hook completes after delegating and emitting a
decrement of events_active by one and a timing of events_runtime with value r
times one thousand, both under a label set carrying the topic, the partition
and the normalised stream label. -/
theorem C5_theorem (tp : TP) (stream : String) (h : List Rat) (r : Rat)
    (hLast : h.getLast? = some r) :
    on_stream_event_out tp stream h =
      ([Action.delegate "on_stream_event_out",
        Action.call ⟨MetricKind.decrement, "events_active", 1,
          some (_format_label (some tp) (some stream) none)⟩,
        Action.call ⟨MetricKind.timing, "events_runtime", r * 1000,
          some (_format_label (some tp) (some stream) none)⟩], true)
  ∧ ("topic", LabelVal.str tp.topic)
      ∈ _format_label (some tp) (some stream) none
  ∧ ("partition", LabelVal.int tp.partition)
      ∈ _format_label (some tp) (some stream) none
  ∧ ("stream", LabelVal.str (_stream_label stream))
      ∈ _format_label (some tp) (some stream) none := by
  refine ⟨?_, ?_, ?_, ?_⟩
  · unfold on_stream_event_out
    rw [hLast]
    exact rfl
  · simp [_format_label]
  · simp [_format_label]
  · simp [_format_label]

/-- C5, witness at the topic t, partition zero, stream shortlabel s and the
one-sample history holding the runtime two. -/
theorem C5_witness :
    ([(2 : Rat)].getLast? = some 2)
  ∧ (on_stream_event_out ⟨"t", 0⟩ "s" [(2 : Rat)] =
      ([Action.delegate "on_stream_event_out",
        Action.call ⟨MetricKind.decrement, "events_active", 1,
          some (_format_label (some ⟨"t", 0⟩) (some "s") none)⟩,
        Action.call ⟨MetricKind.timing, "events_runtime", (2 : Rat) * 1000,
          some (_format_label (some ⟨"t", 0⟩) (some "s") none)⟩], true)
    ∧ ("topic", LabelVal.str (TP.mk "t" 0).topic)
        ∈ _format_label (some ⟨"t", 0⟩) (some "s") none
    ∧ ("partition", LabelVal.int (TP.mk "t" 0).partition)
        ∈ _format_label (some ⟨"t", 0⟩) (some "s") none
    ∧ ("stream", LabelVal.str (_stream_label "s"))
        ∈ _format_label (some ⟨"t", 0⟩) (some "s") none) :=
  ⟨rfl, C5_theorem ⟨"t", 0⟩ "s" [(2 : Rat)] 2 rfl⟩

/-- C6: the send-initiated hook emits exactly one increment of
topic_messages_sent by one whose label set holds exactly the topic key and
nothing else, with the delegation after it. -/
theorem C6_theorem (topic : String) :
    on_send_initiated topic =
      [Action.call ⟨MetricKind.increment, "topic_messages_sent", 1,
         some [("topic", LabelVal.str topic)]⟩,
       Action.delegate "on_send_initiated"] := rfl

/-- C7: construction succeeds exactly when the datadog library is available,
and when it is unavailable it yields the ImproperlyConfigured error and no
monitor value. -/
theorem C7_theorem (hst : String) (p : Int) (pfx : String) (r : Rat) :
    (∀ avail : Bool,
      (∃ m, DatadogStatsMonitor.init avail hst p pfx r = Except.ok m)
        ↔ avail = true)
  ∧ DatadogStatsMonitor.init false hst p pfx r
      = Except.error IMPROPERLY_CONFIGURED_MSG := by
  constructor
  · intro avail
    cases avail
    · simp [DatadogStatsMonitor.init]
    · simp [DatadogStatsMonitor.init]
  · rfl

/-- C8: a missing label mapping and an empty label mapping are both handed to
the transport as the absence of tags, for every facade operation. -/
theorem C8_theorem (c : DatadogStatsClient) (metricName : String) (v : Rat)
    (m0 : Option String) (ums : Option Bool) :
    _encode_labels none = none
  ∧ _encode_labels (some []) = none
  ∧ (DatadogStatsClient.gauge c metricName v none).tags = none
  ∧ (DatadogStatsClient.increment c metricName v none).tags = none
  ∧ (DatadogStatsClient.decrement c metricName v none).tags = none
  ∧ (DatadogStatsClient.timing c metricName v none).tags = none
  ∧ (DatadogStatsClient.histogram c metricName v none).tags = none
  ∧ (DatadogStatsClient.timed c m0 none ums).tags = none
  ∧ (DatadogStatsClient.gauge c metricName v (some [])).tags = none
  ∧ (DatadogStatsClient.increment c metricName v (some [])).tags = none
  ∧ (DatadogStatsClient.decrement c metricName v (some [])).tags = none
  ∧ (DatadogStatsClient.timing c metricName v (some [])).tags = none
  ∧ (DatadogStatsClient.histogram c metricName v (some [])).tags = none
  ∧ (DatadogStatsClient.timed c m0 (some []) ums).tags = none :=
  ⟨rfl, rfl, rfl, rfl, rfl, rfl, rfl, rfl, rfl, rfl, rfl, rfl, rfl, rfl⟩

/-- C9: a freshly constructed monitor holds no client; the first access
builds the client from the configured host, port, namespace and rate and
memoises it; any access on the resulting state returns that same client and
leaves the state unchanged. -/
theorem C9_theorem (avail : Bool) (hst : String) (p : Int) (pfx : String)
    (r : Rat) (m : DatadogStatsMonitor)
    (hInit : DatadogStatsMonitor.init avail hst p pfx r = Except.ok m) :
    m.clientCache = none
  ∧ (DatadogStatsMonitor.client m).1 = ⟨hst, p, pfx, r⟩
  ∧ ((DatadogStatsMonitor.client m).2).clientCache
      = some ((DatadogStatsMonitor.client m).1)
  ∧ DatadogStatsMonitor.client ((DatadogStatsMonitor.client m).2)
      = ((DatadogStatsMonitor.client m).1, (DatadogStatsMonitor.client m).2) := by
  cases avail with
  | false => simp [DatadogStatsMonitor.init] at hInit
  | true =>
    have hm : m = ⟨hst, p, pfx, r, none⟩ := by
      have h0 := hInit
      simp [DatadogStatsMonitor.init] at h0
      exact h0.symm
    subst hm
    exact ⟨rfl, rfl, rfl, rfl⟩

/-- C9, witness at the default configuration. -/
theorem C9_witness :
    (DatadogStatsMonitor.init true "localhost" 8125 "faust-app" 1 =
      Except.ok ⟨"localhost", 8125, "faust-app", 1, none⟩)
  ∧ ((DatadogStatsMonitor.mk "localhost" 8125 "faust-app" 1 none).clientCache
      = none
    ∧ (DatadogStatsMonitor.client ⟨"localhost", 8125, "faust-app", 1, none⟩).1
      = ⟨"localhost", 8125, "faust-app", 1⟩
    ∧ ((DatadogStatsMonitor.client
          ⟨"localhost", 8125, "faust-app", 1, none⟩).2).clientCache
      = some ((DatadogStatsMonitor.client
          ⟨"localhost", 8125, "faust-app", 1, none⟩).1)
    ∧ DatadogStatsMonitor.client
        ((DatadogStatsMonitor.client
          ⟨"localhost", 8125, "faust-app", 1, none⟩).2)
      = ((DatadogStatsMonitor.client
          ⟨"localhost", 8125, "faust-app", 1, none⟩).1,
         (DatadogStatsMonitor.client
          ⟨"localhost", 8125, "faust-app", 1, none⟩).2)) :=
  ⟨rfl, C9_theorem true "localhost" 8125 "faust-app" 1
    ⟨"localhost", 8125, "faust-app", 1, none⟩ rfl⟩

/-- C10: the stream-event-out hook completes exactly when the post-delegation
events_runtime history is non-empty; on an empty history the read of the last
sample fails after the decrement was already emitted. -/
theorem C10_theorem (tp : TP) (stream : String) (h : List Rat) :
    ((on_stream_event_out tp stream h).2 = true) ↔ h ≠ [] := by
  cases h with
  | nil => simp [on_stream_event_out]
  | cons a as =>
    obtain ⟨r, hr⟩ := exists_getLast_cons a as
    simp [on_stream_event_out, hr]

end Faust
